import Mathlib

/-!
Verification of the Conductor orchestration kernel.

This file gives a shallow embedding, in Lean 4, of the TypeScript sources of
the Conductor repository, and proves (or refutes) the frozen specification
claims about them.  Each section names the source file it embeds.  Host
functions of the JavaScript runtime (`JSON.parse`, `fs.readFileSync`,
`Date.now`, `crypto.randomBytes`, regular-expression matching) are not code
of the repository; they are modelled as explicit parameters or as small Lean
functions whose intended behaviour is documented where they are introduced.
-/

namespace Conductor

/-! ## Data model (src/core/types.ts) -/

/-- `AgentRole` from types.ts: four fixed engineering roles. -/
inductive AgentRole where
  | coordinator
  | product
  | dev
  | qa
deriving DecidableEq, Repr

/-- The TypeScript type `boolean | readonly string[]` of
`AgentPermissions.allowNetwork`: either a boolean flag or an explicit
domain list. -/
inductive AllowNetwork where
  | flag (b : Bool)
  | domains (ds : List String)
deriving DecidableEq, Repr

/-- `AgentPermissions` from types.ts. -/
structure AgentPermissions where
  allowNetwork : AllowNetwork
  allowFilesystem : Bool
  maxExecutionTime : Nat
  maxCostCap : Nat
deriving DecidableEq, Repr

/-- `AgentManifest` from types.ts. -/
structure AgentManifest where
  role : AgentRole
  image : String
  systemPromptPath : String
  permissions : AgentPermissions
  tools : List String
deriving DecidableEq, Repr

/-- The capability tags of TOOL_CAPABILITY_MAP values in manifests.ts:
`('network' | 'filesystem')[]`. -/
inductive Capability where
  | network
  | filesystem
deriving DecidableEq, Repr

/-- The `networkPolicy` field of `ResolvedScope`: `'none' | readonly string[]`. -/
inductive NetworkPolicy where
  | none
  | domains (ds : List String)
deriving DecidableEq, Repr

/-- The `filesystemPolicy` field of `ResolvedScope`: `'workspace' | 'none'`. -/
inductive FilesystemPolicy where
  | workspace
  | none
deriving DecidableEq, Repr

/-- `ResolvedScope` from types.ts. -/
structure ResolvedScope where
  role : AgentRole
  effectiveTools : List String
  networkPolicy : NetworkPolicy
  filesystemPolicy : FilesystemPolicy
  maxExecutionTime : Nat
  maxCostCap : Nat
deriving DecidableEq, Repr

/-! ## Tool capability map (src/core/manifests.ts) -/

/-- `TOOL_CAPABILITY_MAP` from manifests.ts, entry for entry. -/
def TOOL_CAPABILITY_MAP : List (String × List Capability) :=
  [ ("fetch",    [Capability.network]),
    ("curl",     [Capability.network]),
    ("wget",     [Capability.network]),
    ("http",     [Capability.network]),
    ("npm",      [Capability.network, Capability.filesystem]),
    ("pip",      [Capability.network, Capability.filesystem]),
    ("read",     [Capability.filesystem]),
    ("write",    [Capability.filesystem]),
    ("fs",       [Capability.filesystem]),
    ("cat",      [Capability.filesystem]),
    ("cp",       [Capability.filesystem]),
    ("mv",       [Capability.filesystem]),
    ("rm",       [Capability.filesystem]),
    ("mkdir",    [Capability.filesystem]),
    ("grep",     []),
    ("git",      []),
    ("npm test", []),
    ("eslint",   []),
    ("tsc",      []),
    ("echo",     []) ]

/-- The lookup expression `TOOL_CAPABILITY_MAP[tool] ?? []` in runtime.ts:
tools absent from the map have no restricted capabilities. -/
def capabilitiesOf (tool : String) : List Capability :=
  (TOOL_CAPABILITY_MAP.lookup tool).getD []

/-! ## Tool filtering and scope resolution (src/core/runtime.ts) -/

/-- `filterTools` from runtime.ts.  A tool is dropped when
`permissions.allowNetwork === false` and it carries the `network`
capability, or when `!permissions.allowFilesystem` and it carries the
`filesystem` capability; otherwise it is kept. -/
def filterTools (tools : List String) (permissions : AgentPermissions) : List String :=
  tools.filter fun tool =>
    let capabilities := capabilitiesOf tool
    if permissions.allowNetwork = AllowNetwork.flag false ∧ Capability.network ∈ capabilities then
      false
    else if permissions.allowFilesystem = false ∧ Capability.filesystem ∈ capabilities then
      false
    else
      true

/-- `resolveScope` from runtime.ts.  `Array.isArray(permissions.allowNetwork)`
corresponds to the `AllowNetwork.domains` constructor; both boolean values
collapse to the `none` policy. -/
def resolveScope (manifest : AgentManifest) (effectiveTools : List String) : ResolvedScope :=
  let networkPolicy : NetworkPolicy :=
    match manifest.permissions.allowNetwork with
    | AllowNetwork.domains ds => NetworkPolicy.domains ds
    | AllowNetwork.flag _ => NetworkPolicy.none
  let filesystemPolicy : FilesystemPolicy :=
    if manifest.permissions.allowFilesystem then FilesystemPolicy.workspace
    else FilesystemPolicy.none
  { role := manifest.role
    effectiveTools := effectiveTools
    networkPolicy := networkPolicy
    filesystemPolicy := filesystemPolicy
    maxExecutionTime := manifest.permissions.maxExecutionTime
    maxCostCap := manifest.permissions.maxCostCap }

/-- The composition used by `spawnAgent` (steps 2 and 3): filter the manifest
tools by its permissions, then resolve the scope. -/
def resolveScopeOf (manifest : AgentManifest) : ResolvedScope :=
  resolveScope manifest (filterTools manifest.tools manifest.permissions)

/-! ## Task, classification, spec, execution and validation types
(src/core/types.ts) -/

/-- `TaskType` from types.ts. -/
inductive TaskType where
  | technical
  | product
  | ambiguous
deriving DecidableEq, Repr

/-- `Task` from types.ts; the optional operator type hint becomes `Option`. -/
structure Task where
  taskId : String
  type : Option TaskType
  body : String
  contextRegistry : List String

/-- `ClassificationCategory` from types.ts. -/
inductive ClassificationCategory where
  | technical_explicit
  | business
  | ambiguous
deriving DecidableEq, Repr

/-- `ClassificationConfidence` from types.ts. -/
inductive ClassificationConfidence where
  | deterministic
  | heuristic
deriving DecidableEq, Repr

/-- The `routedTo` field of `ClassificationResult`: `'product' | 'dev'`. -/
inductive Route where
  | product
  | dev
deriving DecidableEq, Repr

/-- `ClassificationResult` from types.ts. -/
structure ClassificationResult where
  category : ClassificationCategory
  routedTo : Route
  confidence : ClassificationConfidence
  ruleApplied : String
deriving DecidableEq, Repr

/-- `IntentRequirement` from types.ts. -/
structure IntentRequirement where
  id : String
  description : String
  verification : String
deriving DecidableEq, Repr

/-- `IntentConstraint` from types.ts. -/
structure IntentConstraint where
  id : String
  description : String
deriving DecidableEq, Repr

/-- `IntentAssumption` from types.ts. -/
structure IntentAssumption where
  id : String
  statement : String
  source : String
deriving DecidableEq, Repr

/-- `IntentSpec` from types.ts. -/
structure IntentSpec where
  specId : String
  taskId : String
  objective : String
  requirements : List IntentRequirement
  constraints : List IntentConstraint
  outOfScope : List String
  assumptions : List IntentAssumption
  contextRefs : List String

/-- `DevArtifact` from types.ts. -/
structure DevArtifact where
  path : String
  content : String
  type : String
deriving DecidableEq, Repr

/-- `ToolInvocation` from types.ts.  The heterogeneous `args` record is
modelled as key/value string pairs; no claim inspects its contents. -/
structure ToolInvocation where
  tool : String
  args : List (String × String)
  result : String
  timestamp : String
deriving DecidableEq, Repr

/-- The `type` field of `DevError` in types.ts. -/
inductive DevErrorType where
  | scope_violation
  | spec_unclear
  | tool_failure
  | time_limit
  | internal
deriving DecidableEq, Repr

/-- `DevError` from types.ts. -/
structure DevError where
  errorType : DevErrorType
  detail : String
deriving DecidableEq, Repr

/-- `DevOutput` from types.ts: a discriminated union on `status`, with
artifacts only in the `completed` arm and a typed error only in the
`failed` arm. -/
inductive DevOutput where
  | completed (taskId specId : String) (artifacts : List DevArtifact)
      (toolInvocations : List ToolInvocation)
  | failed (taskId specId : String) (toolInvocations : List ToolInvocation)
      (error : DevError)
deriving DecidableEq, Repr

/-- The `'pass' | 'fail'` status of per-requirement and per-constraint
results in types.ts. -/
inductive ResultStatus where
  | pass
  | fail
deriving DecidableEq, Repr

/-- `RequirementResult` from types.ts. -/
structure RequirementResult where
  requirementId : String
  status : ResultStatus
  evidence : String
  verificationMethod : String
deriving DecidableEq, Repr

/-- `ConstraintResult` from types.ts. -/
structure ConstraintResult where
  constraintId : String
  status : ResultStatus
  evidence : String
deriving DecidableEq, Repr

/-- `ScopeViolation` from types.ts. -/
structure ScopeViolation where
  description : String
  invocationRef : String
deriving DecidableEq, Repr

/-- `ValidationSummary` from types.ts. -/
structure ValidationSummary where
  totalRequirements : Nat
  passedRequirements : Nat
  failedRequirements : Nat
  totalConstraints : Nat
  violatedConstraints : Nat
  scopeViolationCount : Nat
deriving DecidableEq, Repr

/-- The `'pass' | 'fail'` verdict of `ValidationReport` in types.ts. -/
inductive Verdict where
  | pass
  | fail
deriving DecidableEq, Repr

/-- `ValidationReport` from types.ts. -/
structure ValidationReport where
  taskId : String
  specId : String
  verdict : Verdict
  requirementResults : List RequirementResult
  constraintResults : List ConstraintResult
  scopeViolations : List ScopeViolation
  summary : ValidationSummary

/-- `ExecutionResult` from types.ts. -/
structure ExecutionResult where
  taskId : String
  classification : ClassificationResult
  intentSpec : IntentSpec
  devOutput : DevOutput
  validation : ValidationReport

/-! ## Audit events (src/core/types.ts, src/core/logger.ts)

The free-form `data: Record<string, unknown>` payload of an audit event is
modelled as an inductive type with one constructor per call-site payload
shape found in the sources.  The logger appends each event to the per-task
stream; the stream is modelled as a `List AuditEvent` threaded through the
functions that log.  (All call sites supply a timestamp, so the logger's
empty-timestamp fallback never fires and is not modelled.) -/

/-- The payload shapes passed to `logEvent` across the sources. -/
inductive EventData where
  | execStart (body : String)
  | classificationData (result : ClassificationResult) (source : String)
      (scores : Option (Nat × Nat))
  | roleData (role : String)
  | stageStart (role : String) (specId : Option String)
  | productEnd (role : String) (specId : String)
  | devEnd (role : String) (specId : String) (status : String) (artifactCount : Nat)
  | qaEnd (role : String) (specId : String) (verdict : Verdict)
      (summary : ValidationSummary)
  | productSkipped (reason : String) (category : ClassificationCategory)
      (ruleApplied : String) (inlineSpecId : String)
  | execEnd (verdict : Verdict) (summary : ValidationSummary)

/-- `AuditEvent` from types.ts. -/
structure AuditEvent where
  timestamp : String
  taskId : String
  eventType : String
  agentId : Option String
  data : EventData

/-! ## Task classifier (src/agents/mock-coordinator.ts)

`TECHNICAL_PATTERNS` and `BUSINESS_PATTERNS` are arrays of JavaScript
regular expressions; `pattern.test(body)` is a host-runtime operation, so a
pattern is modelled as a boolean predicate on the body and the two arrays
as parameters.  Everything the classifier does with the patterns — counting
one point per matching pattern and applying the asymmetric tie-break — is
embedded faithfully. -/

/-- The two pattern arrays of mock-coordinator.ts, abstracted as
predicates. -/
structure PatternSets where
  technicalPatterns : List (String → Bool)
  businessPatterns : List (String → Bool)

/-- `countMatches` from mock-coordinator.ts: one point per pattern that
tests true against the body (not its occurrence count). -/
def countMatches (body : String) (patterns : List (String → Bool)) : Nat :=
  patterns.countP fun pattern => pattern body

/-- `classify` from mock-coordinator.ts.  Returns the classification result
together with the single `classification` audit event it logs; `now` stands
for `new Date().toISOString()`. -/
def classify (patterns : PatternSets) (now : String) (task : Task) :
    ClassificationResult × List AuditEvent :=
  match task.type with
  | some t =>
    let result : ClassificationResult :=
      match t with
      | TaskType.technical =>
        { category := ClassificationCategory.technical_explicit
          routedTo := Route.dev
          confidence := ClassificationConfidence.deterministic
          ruleApplied := "Rule 1 - Operator type: technical" }
      | TaskType.product =>
        { category := ClassificationCategory.business
          routedTo := Route.product
          confidence := ClassificationConfidence.deterministic
          ruleApplied := "Rule 1 - Operator type: product" }
      | TaskType.ambiguous =>
        { category := ClassificationCategory.ambiguous
          routedTo := Route.product
          confidence := ClassificationConfidence.deterministic
          ruleApplied := "Rule 1 - Operator type: ambiguous" }
    (result,
      [{ timestamp := now, taskId := task.taskId, eventType := "classification"
         agentId := Option.none
         data := EventData.classificationData result "operator_type" Option.none }])
  | Option.none =>
    let technicalScore := countMatches task.body patterns.technicalPatterns
    let businessScore := countMatches task.body patterns.businessPatterns
    let result : ClassificationResult :=
      if technicalScore > 0 ∧ technicalScore > businessScore then
        { category := ClassificationCategory.technical_explicit
          routedTo := Route.dev
          confidence := ClassificationConfidence.heuristic
          ruleApplied := "Rule 2 - Technical Explicit" }
      else if businessScore > 0 ∧ businessScore ≥ technicalScore then
        { category := ClassificationCategory.business
          routedTo := Route.product
          confidence := ClassificationConfidence.heuristic
          ruleApplied := "Rule 2 - Business / Strategic" }
      else
        { category := ClassificationCategory.ambiguous
          routedTo := Route.product
          confidence := ClassificationConfidence.heuristic
          ruleApplied := "Rule 2 - Ambiguous (default to Product)" }
    (result,
      [{ timestamp := now, taskId := task.taskId, eventType := "classification"
         agentId := Option.none
         data := EventData.classificationData result "keyword_matching"
           (some (technicalScore, businessScore)) }])

/-- A concrete manifest used to instantiate proved theorems:
`DEV_MANIFEST` from manifests.ts. -/
def DEV_MANIFEST : AgentManifest :=
  { role := AgentRole.dev
    image := "node:20-alpine"
    systemPromptPath := "docs/agents/dev.md"
    permissions :=
      { allowNetwork := AllowNetwork.flag false
        allowFilesystem := true
        maxExecutionTime := 600000
        maxCostCap := 100000 }
    tools := ["read", "write", "grep", "git", "npm test", "eslint", "tsc"] }

/-- `QA_MANIFEST` from manifests.ts. -/
def QA_MANIFEST : AgentManifest :=
  { role := AgentRole.qa
    image := "node:20-alpine"
    systemPromptPath := "docs/agents/qa.md"
    permissions :=
      { allowNetwork := AllowNetwork.flag false
        allowFilesystem := false
        maxExecutionTime := 300000
        maxCostCap := 30000 }
    tools := ["read", "grep"] }

end Conductor

namespace Conductor

/-! ## Claims C1 and C2 -/

/-- C1: for every manifest `M`, the resolved scope's effective tool list is a
subset of `M.tools` (resolution never adds a tool), and when
`M.permissions.allowNetwork` is `false` no tool whose capability tag
includes `network` appears in the effective tool list. -/
theorem resolveScope_tools_subset_and_no_network (m : AgentManifest) :
    (∀ t ∈ (resolveScopeOf m).effectiveTools, t ∈ m.tools) ∧
    (m.permissions.allowNetwork = AllowNetwork.flag false →
      ∀ t ∈ (resolveScopeOf m).effectiveTools, Capability.network ∉ capabilitiesOf t) := by
  constructor
  · intro t ht
    simp only [resolveScopeOf, resolveScope, filterTools, List.mem_filter] at ht
    exact ht.1
  · intro hnet t ht hcap
    simp only [resolveScopeOf, resolveScope, filterTools, List.mem_filter] at ht
    have hpred := ht.2
    rw [if_pos ⟨hnet, hcap⟩] at hpred
    exact Bool.false_ne_true hpred

/-- Witness for C1 at the concrete `DEV_MANIFEST` extended with a
network-capable tool: the kept tool `read` is among the manifest tools and
carries no `network` capability. -/
theorem resolveScope_tools_subset_and_no_network_witness :
    "read" ∈ DEV_MANIFEST.tools ∧ Capability.network ∉ capabilitiesOf "read" := by
  have h := resolveScope_tools_subset_and_no_network DEV_MANIFEST
  exact ⟨h.1 "read" (by decide), h.2 rfl "read" (by decide)⟩

/-- C2: for every manifest whose `permissions.allowNetwork` is the boolean
`true` (no explicit domain list), scope resolution produces network policy
`none`; the boolean `false` also collapses to `none`, and only an explicit
domain-list value passes through unchanged as the network policy. -/
theorem resolveScope_networkPolicy_characterization
    (m : AgentManifest) (ts : List String) :
    (m.permissions.allowNetwork = AllowNetwork.flag true →
      (resolveScope m ts).networkPolicy = NetworkPolicy.none) ∧
    (m.permissions.allowNetwork = AllowNetwork.flag false →
      (resolveScope m ts).networkPolicy = NetworkPolicy.none) ∧
    (∀ ds, m.permissions.allowNetwork = AllowNetwork.domains ds →
      (resolveScope m ts).networkPolicy = NetworkPolicy.domains ds) := by
  refine ⟨fun h => ?_, fun h => ?_, fun ds h => ?_⟩ <;>
    simp [resolveScope, h]

/-- Witness for C2: a manifest with `allowNetwork = true` resolves to the
`none` network policy. -/
theorem resolveScope_networkPolicy_characterization_witness :
    (resolveScope
      { DEV_MANIFEST with
        permissions := { DEV_MANIFEST.permissions with
                          allowNetwork := AllowNetwork.flag true } }
      []).networkPolicy = NetworkPolicy.none := by
  exact (resolveScope_networkPolicy_characterization
    { DEV_MANIFEST with
      permissions := { DEV_MANIFEST.permissions with
                        allowNetwork := AllowNetwork.flag true } } []).1 rfl

/-! ## Claim C3 -/

/-- Concrete pattern sets used to instantiate classifier theorems. -/
def samplePatterns : PatternSets :=
  { technicalPatterns := [fun body => body == "refactor", fun body => body == "bug"]
    businessPatterns := [fun body => body == "roadmap", fun body => body == "refactor"] }

/-- A concrete task with no operator type hint and a body matching no
pattern of `samplePatterns`. -/
def sampleTask : Task :=
  { taskId := "task-001", type := Option.none, body := "hello there", contextRegistry := [] }

/-- C3: without an operator type hint, classification scores the body
against the two pattern sets via `countMatches` and applies the asymmetric
tie-break — the task routes to `dev` iff the technical score strictly
exceeds the business score; a business score that is at least 1 and at
least the technical score routes to `product` with category `business`;
two zero scores route to `product` with category `ambiguous`; confidence is
always `heuristic`; and a tie never routes to `dev`. -/
theorem classify_asymmetric_tie_break (patterns : PatternSets) (now : String)
    (task : Task) (hty : task.type = Option.none) :
    ((classify patterns now task).1.routedTo = Route.dev ↔
        countMatches task.body patterns.businessPatterns <
          countMatches task.body patterns.technicalPatterns) ∧
    (classify patterns now task).1.confidence = ClassificationConfidence.heuristic ∧
    (1 ≤ countMatches task.body patterns.businessPatterns →
      countMatches task.body patterns.technicalPatterns ≤
          countMatches task.body patterns.businessPatterns →
      (classify patterns now task).1.routedTo = Route.product ∧
        (classify patterns now task).1.category = ClassificationCategory.business) ∧
    (countMatches task.body patterns.technicalPatterns = 0 →
      countMatches task.body patterns.businessPatterns = 0 →
      (classify patterns now task).1.routedTo = Route.product ∧
        (classify patterns now task).1.category = ClassificationCategory.ambiguous) ∧
    (countMatches task.body patterns.technicalPatterns =
        countMatches task.body patterns.businessPatterns →
      (classify patterns now task).1.routedTo = Route.product) := by
  simp only [classify, hty]
  set t := countMatches task.body patterns.technicalPatterns with ht
  set b := countMatches task.body patterns.businessPatterns with hb
  split_ifs with h1 h2
  · refine ⟨by simp [h1.2], rfl, ?_, ?_, ?_⟩
    · intro _ hle; omega
    · intro h0 _; omega
    · intro heq; omega
  · refine ⟨?_, rfl, fun _ _ => ⟨rfl, rfl⟩, ?_, fun _ => rfl⟩
    · simp only [false_iff]
      intro hlt
      exact h1 ⟨by omega, hlt⟩
    · intro h0 hb0; omega
  · refine ⟨?_, rfl, ?_, fun _ _ => ⟨rfl, rfl⟩, fun _ => rfl⟩
    · simp only [false_iff]
      intro hlt
      exact h1 ⟨by omega, hlt⟩
    · intro h1' hle; exact absurd ⟨h1', hle⟩ h2

/-- Witness for C3: the zero-signal `sampleTask` routes to `product` with
category `ambiguous`. -/
theorem classify_asymmetric_tie_break_witness :
    (classify samplePatterns "2026-01-01T00:00:00.000Z" sampleTask).1.routedTo = Route.product ∧
    (classify samplePatterns "2026-01-01T00:00:00.000Z" sampleTask).1.category =
      ClassificationCategory.ambiguous := by
  have h := classify_asymmetric_tie_break samplePatterns "2026-01-01T00:00:00.000Z"
    sampleTask rfl
  exact h.2.2.2.1 (by decide) (by decide)

/-! ## JSON values and the response parser (src/core/llm/parser.ts)

JavaScript values produced by `JSON.parse` are modelled by the inductive
`Json` below.  `JSON.parse` itself is a host-runtime function, not code of
this repository, so the parser module is parametrised by a function
`jp : String → Option Json`, where `Option.none` models a thrown
`SyntaxError` and `some v` a successful parse returning `v` — which may be
`Json.null`, since `"null"` is a valid JSON document.

A JavaScript expression of type `unknown | null` cannot distinguish the
JSON value `null` from the sentinel `null` used by the extraction
strategies to signal failure; this conflation is modelled by collapsing
`some Json.null` to `Option.none` at the return of `tryDirectParse`,
exactly where the conflation happens in the source. -/

mutual
/-- The JavaScript value space produced by `JSON.parse` (numbers are
modelled as integers; numeric precision is irrelevant to every claim). -/
inductive Json where
  | null
  | bool (b : Bool)
  | num (n : Int)
  | str (s : String)
  | arr (items : JsonItems)
  | obj (fields : JsonFields)

/-- Elements of a JSON array, as a specialised list to ease mutual
recursion. -/
inductive JsonItems where
  | nil
  | cons (hd : Json) (tl : JsonItems)

/-- Key/value fields of a JSON object. -/
inductive JsonFields where
  | fnil
  | fcons (key : String) (val : Json) (tl : JsonFields)
end

/-- The host `JSON.parse` modelled as a parameter: `Option.none` is a
thrown exception, `some v` a returned value. -/
def JsonParseFn : Type := String → Option Json

/-- Model of the JavaScript `String.prototype.trim` host function. -/
def jsTrim (s : String) : String :=
  ⟨((s.data.dropWhile Char.isWhitespace).reverse.dropWhile Char.isWhitespace).reverse⟩

/-- `tryDirectParse` from parser.ts: `JSON.parse` in a try/catch returning
`null` on failure.  A parse that *returns* the JSON value `null` is
indistinguishable, at type `unknown | null`, from the catch result, so
both map to `Option.none` here. -/
def tryDirectParse (jp : JsonParseFn) (raw : String) : Option Json :=
  match jp raw with
  | some Json.null => Option.none
  | r => r

/-- Splits a character list at the first occurrence of the (non-empty)
pattern, returning the part before it and the part after it. -/
def splitFirst (pat : List Char) : List Char → Option (List Char × List Char)
  | [] => Option.none
  | c :: cs =>
    if pat.isPrefixOf (c :: cs) then some ([], (c :: cs).drop pat.length)
    else
      match splitFirst pat cs with
      | Option.none => Option.none
      | some (pre, post) => some (c :: pre, post)

/-- `tryCodeFenceParse` from parser.ts.  The host regular expression
searches for the first pair of backtick fences, with an optional `json`
language tag, skips the whitespace after the opening fence, and requires a
non-empty capture (`!match?.[1]` rejects an empty capture); the captured
text is trimmed and handed to `tryDirectParse`. -/
def tryCodeFenceParse (jp : JsonParseFn) (raw : String) : Option Json :=
  match splitFirst "```".data raw.data with
  | Option.none => Option.none
  | some (_, afterOpen) =>
    let afterTag := if "json".data.isPrefixOf afterOpen then afterOpen.drop 4 else afterOpen
    match splitFirst "```".data afterTag with
    | Option.none => Option.none
    | some (inner, _) =>
      let captured := inner.dropWhile Char.isWhitespace
      if captured.isEmpty then Option.none
      else tryDirectParse jp (jsTrim ⟨captured⟩)

/-- Model of the JavaScript `String.prototype.indexOf` host function for a
single character, returning `Option.none` for `-1`. -/
def indexOfChar (c : Char) : List Char → Option Nat
  | [] => Option.none
  | x :: xs => if x = c then some 0 else (indexOfChar c xs).map (· + 1)

/-- The scanning loop of `tryBracketExtract` in parser.ts, iterating from
the opening bracket with a nesting depth, an in-string flag and an escape
flag; `i` is the loop index relative to the start of the scan.  Returns
the number of characters up to and including the one at which the depth
returns to zero, or `Option.none` if the loop runs off the end. -/
def bracketScanAux (op cl : Char) :
    List Char → Int → Bool → Bool → Nat → Option Nat
  | [], _, _, _, _ => Option.none
  | c :: rest, depth, inString, escaped, i =>
    if escaped then bracketScanAux op cl rest depth inString false (i + 1)
    else if c = '\\' then bracketScanAux op cl rest depth inString true (i + 1)
    else if c = '"' then bracketScanAux op cl rest depth (!inString) escaped (i + 1)
    else if inString then bracketScanAux op cl rest depth inString escaped (i + 1)
    else
      let depth1 : Int := if c = op then depth + 1 else depth
      let depth2 : Int := if c = cl then depth1 - 1 else depth1
      if depth2 = 0 then some (i + 1)
      else bracketScanAux op cl rest depth2 inString escaped (i + 1)

/-- `tryBracketExtract` from parser.ts: pick whichever of the first `{` or
first `[` occurs earlier, scan forward to the matching close bracket with
the in-string and escape tracking of `bracketScanAux`, and hand the
captured slice to `tryDirectParse`. -/
def tryBracketExtract (jp : JsonParseFn) (raw : String) : Option Json :=
  let chars := raw.data
  let scanFrom := fun (start : Nat) (op cl : Char) =>
    match bracketScanAux op cl (chars.drop start) 0 false false 0 with
    | Option.none => Option.none
    | some n => tryDirectParse jp ⟨(chars.drop start).take n⟩
  match indexOfChar '{' chars, indexOfChar '[' chars with
  | Option.none, Option.none => Option.none
  | some startObj, Option.none => scanFrom startObj '{' '}'
  | Option.none, some startArr => scanFrom startArr '[' ']'
  | some startObj, some startArr =>
    if startObj < startArr then scanFrom startObj '{' '}'
    else scanFrom startArr '[' ']'

/-- `ParseErrorKind` from parser.ts. -/
inductive ParseErrorKind where
  | invalid_json
  | schema_mismatch
deriving DecidableEq, Repr

/-- `ParseError` from parser.ts. -/
structure ParseError where
  raw : String
  message : String
  kind : ParseErrorKind
deriving DecidableEq, Repr

/-- `ParseResult<T>` from parser.ts, at the `Json` value type; the
caller-supplied type-guard `validate` becomes a boolean predicate. -/
inductive ParseRes where
  | ok (data : Json)
  | error (e : ParseError)

/-- The strategy chain of `parseJSON`: the `??` cascade over the three
extraction strategies applied to the trimmed input. -/
def extractJSON (jp : JsonParseFn) (raw : String) : Option Json :=
  tryDirectParse jp (jsTrim raw) <|> tryCodeFenceParse jp (jsTrim raw) <|>
    tryBracketExtract jp (jsTrim raw)

/-- `parseJSON` from parser.ts. -/
def parseJSON (jp : JsonParseFn) (raw : String) (validate : Json → Bool) : ParseRes :=
  match extractJSON jp raw with
  | Option.none =>
    ParseRes.error
      { raw := raw
        message := "Failed to extract valid JSON from LLM response."
        kind := ParseErrorKind.invalid_json }
  | some parsed =>
    if validate parsed then ParseRes.ok parsed
    else
      ParseRes.error
        { raw := raw
          message := "JSON parsed successfully but does not match expected schema."
          kind := ParseErrorKind.schema_mismatch }

/-- The strategy chain yields nothing exactly when every single strategy
yields nothing. -/
theorem extractJSON_eq_none_iff (jp : JsonParseFn) (raw : String) :
    extractJSON jp raw = Option.none ↔
      tryDirectParse jp (jsTrim raw) = Option.none ∧
      tryCodeFenceParse jp (jsTrim raw) = Option.none ∧
      tryBracketExtract jp (jsTrim raw) = Option.none := by
  unfold extractJSON
  cases h1 : tryDirectParse jp (jsTrim raw) <;>
    cases h2 : tryCodeFenceParse jp (jsTrim raw) <;>
      cases h3 : tryBracketExtract jp (jsTrim raw) <;>
        simp [Option.orElse]

/-- A successful direct parse of a non-null value survives the
null-collapsing return of `tryDirectParse`. -/
theorem tryDirectParse_eq_some (jp : JsonParseFn) (t : String) (v : Json)
    (h : jp t = some v) (hnn : v ≠ Json.null) : tryDirectParse jp t = some v := by
  unfold tryDirectParse
  rw [h]
  cases v <;> first | rfl | exact absurd rfl hnn

/-- Shared helper: `parseJSON` reports `invalid_json` exactly when every
extraction strategy yields nothing. -/
theorem parseJSON_invalid_json_iff (jp : JsonParseFn) (raw : String)
    (validate : Json → Bool) :
    (∃ e, parseJSON jp raw validate = ParseRes.error e ∧
        e.kind = ParseErrorKind.invalid_json) ↔
      (tryDirectParse jp (jsTrim raw) = Option.none ∧
        tryCodeFenceParse jp (jsTrim raw) = Option.none ∧
        tryBracketExtract jp (jsTrim raw) = Option.none) := by
  rw [← extractJSON_eq_none_iff jp raw]
  cases hext : extractJSON jp raw with
  | none => simp [parseJSON, hext]
  | some v =>
    by_cases hv : validate v = true
    · simp [parseJSON, hext, hv]
    · have hv' : validate v = false := by
        cases hval : validate v
        · rfl
        · exact absurd hval hv
      simp [parseJSON, hext, hv']

/-! ## Claims C4 and C6 -/

/-- C6: `parseJSON` is total — it returns either a success value or one of
the two structured errors; the error kind is `invalid_json` exactly when no
extraction strategy yields a value, `schema_mismatch` exactly when a value
was extracted but the caller-supplied validator rejects it, and a success
exactly when a value was extracted and accepted.  (The JS contract "never
throws" corresponds to `parseJSON` being a total Lean function.) -/
theorem parseJSON_never_throws_taxonomy (jp : JsonParseFn) (raw : String)
    (validate : Json → Bool) :
    ((∃ v, parseJSON jp raw validate = ParseRes.ok v) ∨
      (∃ e, parseJSON jp raw validate = ParseRes.error e)) ∧
    ((∃ v, parseJSON jp raw validate = ParseRes.ok v) ↔
      (∃ v, extractJSON jp raw = some v ∧ validate v = true)) ∧
    ((∃ e, parseJSON jp raw validate = ParseRes.error e ∧
        e.kind = ParseErrorKind.invalid_json) ↔
      (tryDirectParse jp (jsTrim raw) = Option.none ∧
        tryCodeFenceParse jp (jsTrim raw) = Option.none ∧
        tryBracketExtract jp (jsTrim raw) = Option.none)) ∧
    ((∃ e, parseJSON jp raw validate = ParseRes.error e ∧
        e.kind = ParseErrorKind.schema_mismatch) ↔
      (∃ v, extractJSON jp raw = some v ∧ validate v = false)) := by
  refine ⟨?_, ?_, parseJSON_invalid_json_iff jp raw validate, ?_⟩ <;>
    · cases hext : extractJSON jp raw with
      | none => simp [parseJSON, hext]
      | some v =>
        by_cases hv : validate v = true
        · simp [parseJSON, hext, hv]
        · have hv' : validate v = false := by
            cases hval : validate v
            · rfl
            · exact absurd hval hv
          simp [parseJSON, hext, hv']

/-- A model of `JSON.parse` restricted to the one document consulted by the
counterexample trace: the valid JSON document `"null"`, whose value is the
JSON null. -/
def nullOnlyParse : JsonParseFn :=
  fun s => if s = "null" then some Json.null else Option.none

/-- Counterexample to C4 as stated: the input `"null"` is its own trimmed
form and is valid JSON (the host `JSON.parse` returns the JSON null for
it), the validator accepts every value, and yet `parseJSON` does not
succeed via strategy 1 — it falls through all three strategies and returns
`invalid_json`, because the returned JSON null is indistinguishable from
the failure sentinel. -/
theorem parseJSON_null_document_counterexample :
    nullOnlyParse (jsTrim "null") = some Json.null ∧
    (fun _ => true) Json.null = true ∧
    parseJSON nullOnlyParse "null" (fun _ => true) =
      ParseRes.error
        { raw := "null"
          message := "Failed to extract valid JSON from LLM response."
          kind := ParseErrorKind.invalid_json } :=
  ⟨rfl, rfl, rfl⟩

/-- C4 (amended): for every input whose trimmed form is valid JSON parsing
to a value *other than the JSON null*, and every validator accepting that
value, `parseJSON` succeeds via strategy 1 and returns the parsed value;
and `invalid_json` is returned exactly when all three extraction
strategies fail. -/
theorem parseJSON_strategy_one (jp : JsonParseFn) (raw : String)
    (validate : Json → Bool) :
    (∀ v, jp (jsTrim raw) = some v → v ≠ Json.null → validate v = true →
      parseJSON jp raw validate = ParseRes.ok v) ∧
    ((∃ e, parseJSON jp raw validate = ParseRes.error e ∧
        e.kind = ParseErrorKind.invalid_json) ↔
      (tryDirectParse jp (jsTrim raw) = Option.none ∧
        tryCodeFenceParse jp (jsTrim raw) = Option.none ∧
        tryBracketExtract jp (jsTrim raw) = Option.none)) := by
  constructor
  · intro v hparse hnn hval
    have hdirect := tryDirectParse_eq_some jp (jsTrim raw) v hparse hnn
    have hext : extractJSON jp raw = some v := by
      unfold extractJSON
      rw [hdirect]
      rfl
    simp [parseJSON, hext, hval]
  · exact parseJSON_invalid_json_iff jp raw validate

/-- A model of `JSON.parse` restricted to the one document consulted by the
witness trace for C4. -/
def numOnlyParse : JsonParseFn :=
  fun s => if s = "42" then some (Json.num 42) else Option.none

/-- Witness for C4 (amended): the document `"42"` parses directly and
`parseJSON` succeeds via strategy 1. -/
theorem parseJSON_strategy_one_witness :
    parseJSON numOnlyParse "42" (fun _ => true) = ParseRes.ok (Json.num 42) :=
  (parseJSON_strategy_one numOnlyParse "42" (fun _ => true)).1 (Json.num 42) rfl
    (fun h => Json.noConfusion h) rfl

/-! ## A JSON serializer, for claim C5

Claim C5 quantifies over input texts containing "a serialized JSON
object".  To state it, `Json` values are rendered to text the way the host
`JSON.stringify` renders them: string literals are quoted with `"` and the
characters `"` and `\` are backslash-escaped (control-character escapes
and float formatting are irrelevant here — the claim is about bracket
scanning, and every rendered character class below is handled by the
scanner in the same way as its JSON counterpart). -/

/-- The decimal digit character for `d < 10`. -/
def digitChar (d : Nat) : Char := Char.ofNat (48 + d)

/-- Decimal rendering of a natural number. -/
def natChars (n : Nat) : List Char :=
  if n < 10 then [digitChar n]
  else natChars (n / 10) ++ [digitChar (n % 10)]
termination_by n
decreasing_by exact Nat.div_lt_self (by omega) (by omega)

/-- Decimal rendering of an integer. -/
def intChars (n : Int) : List Char :=
  if n < 0 then '-' :: natChars n.natAbs else natChars n.toNat

/-- The rendering of one character inside a JSON string literal: `"` and
`\` are escaped, everything else is copied. -/
def escSeq (c : Char) : List Char :=
  if c = '"' ∨ c = '\\' then ['\\', c] else [c]

/-- The rendering of the characters of a JSON string literal body. -/
def escapeChars : List Char → List Char
  | [] => []
  | c :: cs => escSeq c ++ escapeChars cs

/-- A rendered JSON string literal, quotes included. -/
def serStrChars (s : String) : List Char :=
  '"' :: (escapeChars s.data ++ ['"'])

mutual
/-- Rendering of a JSON value. -/
def serJson : Json → List Char
  | Json.null => ['n', 'u', 'l', 'l']
  | Json.bool true => ['t', 'r', 'u', 'e']
  | Json.bool false => ['f', 'a', 'l', 's', 'e']
  | Json.num n => intChars n
  | Json.str s => serStrChars s
  | Json.arr items => '[' :: (serItems items ++ [']'])
  | Json.obj fields => '{' :: (serFields fields ++ ['}'])

/-- Rendering of comma-separated array elements. -/
def serItems : JsonItems → List Char
  | JsonItems.nil => []
  | JsonItems.cons hd JsonItems.nil => serJson hd
  | JsonItems.cons hd (JsonItems.cons h2 tl) =>
    serJson hd ++ (',' :: serItems (JsonItems.cons h2 tl))

/-- Rendering of comma-separated object fields. -/
def serFields : JsonFields → List Char
  | JsonFields.fnil => []
  | JsonFields.fcons k v JsonFields.fnil => serStrChars k ++ (':' :: serJson v)
  | JsonFields.fcons k v (JsonFields.fcons k2 v2 tl) =>
    serStrChars k ++
      (':' :: (serJson v ++ (',' :: serFields (JsonFields.fcons k2 v2 tl))))
end

mutual
/-- Whether some string value inside the JSON value contains an (unescaped)
closing-brace character. -/
def hasBraceString : Json → Bool
  | Json.str s => s.data.contains '}'
  | Json.arr items => hasBraceStringItems items
  | Json.obj fields => hasBraceStringFields fields
  | _ => false

/-- `hasBraceString` over array elements. -/
def hasBraceStringItems : JsonItems → Bool
  | JsonItems.nil => false
  | JsonItems.cons hd tl => hasBraceString hd || hasBraceStringItems tl

/-- `hasBraceString` over object fields. -/
def hasBraceStringFields : JsonFields → Bool
  | JsonFields.fnil => false
  | JsonFields.fcons _ v tl => hasBraceString v || hasBraceStringFields tl
end

/-- Characters the `{`/`}` scan of `bracketScanAux` passes over without
touching the depth, the string state or the escape state (outside string
literals). -/
def scanNeutral (c : Char) : Bool :=
  decide (c ≠ '\\' ∧ c ≠ '"' ∧ c ≠ '{' ∧ c ≠ '}')

/-- Every character of a rendered natural number is a decimal digit. -/
theorem natChars_mem (n : Nat) :
    ∀ c ∈ natChars n, ∃ d, d < 10 ∧ c = digitChar d := by
  induction n using Nat.strong_induction_on with
  | _ n ih =>
    unfold natChars
    split
    · next h =>
      intro c hc
      simp only [List.mem_singleton] at hc
      exact ⟨n, h, hc⟩
    · next h =>
      intro c hc
      rw [List.mem_append, List.mem_singleton] at hc
      rcases hc with hc | hc
      · exact ih (n / 10) (Nat.div_lt_self (by omega) (by omega)) c hc
      · exact ⟨n % 10, Nat.mod_lt _ (by omega), hc⟩

/-- Decimal digits are neutral for the brace scan. -/
theorem scanNeutral_digitChar (d : Nat) (hd : d < 10) :
    scanNeutral (digitChar d) = true := by
  interval_cases d <;> decide

/-- Every character of a rendered integer is neutral for the brace scan. -/
theorem intChars_neutral (n : Int) : ∀ c ∈ intChars n, scanNeutral c = true := by
  intro c hc
  unfold intChars at hc
  split at hc
  · rw [List.mem_cons] at hc
    rcases hc with hc | hc
    · subst hc; decide
    · obtain ⟨d, hd, rfl⟩ := natChars_mem _ c hc
      exact scanNeutral_digitChar d hd
  · obtain ⟨d, hd, rfl⟩ := natChars_mem _ c hc
    exact scanNeutral_digitChar d hd

/-! ## Scanner lemmas for claim C5 -/

/-- One scan step over a neutral character outside a string: only the index
advances. -/
theorem scanAux_cons_neutral (c : Char) (h : scanNeutral c = true)
    (rest : List Char) (d : Int) (i : Nat) (hd : d ≠ 0) :
    bracketScanAux '{' '}' (c :: rest) d false false i =
      bracketScanAux '{' '}' rest d false false (i + 1) := by
  obtain ⟨h1, h2, h3, h4⟩ := of_decide_eq_true h
  simp [bracketScanAux, h1, h2, h3, h4, hd]

/-- A run of neutral characters outside a string: only the index advances,
by the run's length. -/
theorem scanAux_append_neutral (A : List Char)
    (hA : ∀ c ∈ A, scanNeutral c = true) (rest : List Char) (d : Int) (i : Nat)
    (hd : d ≠ 0) :
    bracketScanAux '{' '}' (A ++ rest) d false false i =
      bracketScanAux '{' '}' rest d false false (i + A.length) := by
  induction A generalizing i with
  | nil => simp
  | cons c A' ih =>
    rw [List.cons_append,
      scanAux_cons_neutral c (hA c (List.mem_cons_self c A')) _ d i hd,
      ih (fun x hx => hA x (List.mem_cons_of_mem c hx)) (i + 1)]
    simp only [List.length_cons]
    congr 1
    omega

/-- Scanning the escaped body of a string literal, starting inside the
string: the depth is untouched and the string state is preserved. -/
theorem scanAux_escapeChars (cs : List Char) (rest : List Char) (d : Int)
    (i : Nat) :
    bracketScanAux '{' '}' (escapeChars cs ++ rest) d true false i =
      bracketScanAux '{' '}' rest d true false (i + (escapeChars cs).length) := by
  induction cs generalizing i with
  | nil => simp [escapeChars]
  | cons c cs' ih =>
    by_cases h : c = '"' ∨ c = '\\'
    · simp only [escapeChars, escSeq, if_pos h, List.cons_append, List.nil_append,
        List.append_assoc]
      have step : bracketScanAux '{' '}' ('\\' :: c :: (escapeChars cs' ++ rest))
          d true false i =
          bracketScanAux '{' '}' (escapeChars cs' ++ rest) d true false (i + 1 + 1) := by
        simp [bracketScanAux]
      rw [step, ih (i + 1 + 1)]
      simp only [List.length_cons]
      congr 1
      omega
    · obtain ⟨hq, hb⟩ := not_or.mp h
      simp only [escapeChars, escSeq, if_neg h, List.singleton_append, List.cons_append,
        List.nil_append]
      have step : bracketScanAux '{' '}' (c :: (escapeChars cs' ++ rest))
          d true false i =
          bracketScanAux '{' '}' (escapeChars cs' ++ rest) d true false (i + 1) := by
        simp [bracketScanAux, hq, hb]
      rw [step, ih (i + 1)]
      simp only [List.length_cons]
      congr 1
      omega

/-- Scanning a whole rendered string literal from outside a string: the
depth is untouched, brackets inside the literal included. -/
theorem scanAux_serStrChars (s : String) (rest : List Char) (d : Int) (i : Nat) :
    bracketScanAux '{' '}' (serStrChars s ++ rest) d false false i =
      bracketScanAux '{' '}' rest d false false (i + (serStrChars s).length) := by
  simp only [serStrChars, List.cons_append, List.append_assoc, List.nil_append]
  have step1 : bracketScanAux '{' '}'
      ('"' :: (escapeChars s.data ++ ('"' :: rest))) d false false i =
      bracketScanAux '{' '}' (escapeChars s.data ++ ('"' :: rest)) d true false
        (i + 1) := by
    simp [bracketScanAux]
  rw [step1, scanAux_escapeChars]
  have step2 : bracketScanAux '{' '}' ('"' :: rest) d true false
      (i + 1 + (escapeChars s.data).length) =
      bracketScanAux '{' '}' rest d false false
        (i + 1 + (escapeChars s.data).length + 1) := by
    simp [bracketScanAux]
  rw [step2]
  simp only [List.length_cons, List.length_append, List.length_nil]
  congr 1
  omega

mutual
/-- Scanning a rendered JSON value at positive depth, outside a string:
the depth never returns to zero inside it, so the scan passes over it
whole. -/
theorem scanAux_serJson (j : Json) (rest : List Char) (d : Int) (i : Nat)
    (hd : 1 ≤ d) :
    bracketScanAux '{' '}' (serJson j ++ rest) d false false i =
      bracketScanAux '{' '}' rest d false false (i + (serJson j).length) := by
  cases j with
  | null =>
    simp only [serJson]
    exact scanAux_append_neutral _ (by decide) rest d i (by omega)
  | bool b =>
    cases b <;>
      · simp only [serJson]
        exact scanAux_append_neutral _ (by decide) rest d i (by omega)
  | num n =>
    simp only [serJson]
    exact scanAux_append_neutral _ (intChars_neutral n) rest d i (by omega)
  | str s =>
    simp only [serJson]
    exact scanAux_serStrChars s rest d i
  | arr items =>
    simp only [serJson, List.cons_append, List.append_assoc, List.singleton_append]
    rw [scanAux_cons_neutral '[' (by decide) _ d i (by omega),
      scanAux_serItems items _ d (i + 1) hd,
      scanAux_cons_neutral ']' (by decide) _ d _ (by omega)]
    simp only [List.length_cons, List.length_append, List.length_singleton,
      List.length_nil]
    congr 1
    omega
  | obj fields =>
    simp only [serJson, List.cons_append, List.append_assoc, List.singleton_append,
      List.nil_append]
    have hne1 : d + 1 ≠ 0 := by omega
    have step1 : bracketScanAux '{' '}'
        ('{' :: (serFields fields ++ ('}' :: rest))) d false false i =
        bracketScanAux '{' '}' (serFields fields ++ ('}' :: rest)) (d + 1)
          false false (i + 1) := by
      simp [bracketScanAux, hne1]
    have hne2 : d ≠ 0 := by omega
    have step2 : bracketScanAux '{' '}' ('}' :: rest) (d + 1) false false
        (i + 1 + (serFields fields).length) =
        bracketScanAux '{' '}' rest d false false
          (i + 1 + (serFields fields).length + 1) := by
      simp [bracketScanAux, hne2]
    rw [step1, scanAux_serFields fields _ (d + 1) (i + 1) (by omega), step2]
    simp only [List.length_cons, List.length_append, List.length_singleton,
      List.length_nil]
    congr 1
    omega

/-- Scanning rendered array elements at positive depth. -/
theorem scanAux_serItems (items : JsonItems) (rest : List Char) (d : Int)
    (i : Nat) (hd : 1 ≤ d) :
    bracketScanAux '{' '}' (serItems items ++ rest) d false false i =
      bracketScanAux '{' '}' rest d false false (i + (serItems items).length) := by
  cases items with
  | nil => simp [serItems]
  | cons hd1 tl =>
    cases tl with
    | nil =>
      simp only [serItems]
      exact scanAux_serJson hd1 rest d i hd
    | cons h2 tl2 =>
      simp only [serItems, List.append_assoc, List.cons_append]
      rw [scanAux_serJson hd1 _ d i hd,
        scanAux_cons_neutral ',' (by decide) _ d _ (by omega),
        scanAux_serItems (JsonItems.cons h2 tl2) rest d _ hd]
      simp only [List.length_append, List.length_cons]
      congr 1
      omega

/-- Scanning rendered object fields at positive depth. -/
theorem scanAux_serFields (fields : JsonFields) (rest : List Char) (d : Int)
    (i : Nat) (hd : 1 ≤ d) :
    bracketScanAux '{' '}' (serFields fields ++ rest) d false false i =
      bracketScanAux '{' '}' rest d false false (i + (serFields fields).length) := by
  cases fields with
  | fnil => simp [serFields]
  | fcons k v tl =>
    cases tl with
    | fnil =>
      simp only [serFields, List.append_assoc, List.cons_append]
      rw [scanAux_serStrChars k _ d i,
        scanAux_cons_neutral ':' (by decide) _ d _ (by omega),
        scanAux_serJson v rest d _ hd]
      simp only [List.length_append, List.length_cons]
      congr 1
      omega
    | fcons k2 v2 tl2 =>
      simp only [serFields, List.append_assoc, List.cons_append]
      rw [scanAux_serStrChars k _ d i,
        scanAux_cons_neutral ':' (by decide) _ d _ (by omega),
        scanAux_serJson v _ d _ hd,
        scanAux_cons_neutral ',' (by decide) _ d _ (by omega),
        scanAux_serFields (JsonFields.fcons k2 v2 tl2) rest d _ hd]
      simp only [List.length_append, List.length_cons]
      congr 1
      omega
end

/-- The scan of a rendered JSON object started at its opening brace with
depth 0 returns exactly at its closing brace, consuming exactly its
rendering. -/
theorem scanAux_serObj (fields : JsonFields) (rest : List Char) :
    bracketScanAux '{' '}' (serJson (Json.obj fields) ++ rest) 0 false false 0 =
      some (serJson (Json.obj fields)).length := by
  simp only [serJson, List.cons_append, List.append_assoc, List.singleton_append,
    List.nil_append]
  have step1 : bracketScanAux '{' '}'
      ('{' :: (serFields fields ++ ('}' :: rest))) 0 false false 0 =
      bracketScanAux '{' '}' (serFields fields ++ ('}' :: rest)) 1
        false false 1 := by
    simp [bracketScanAux]
  have step2 : bracketScanAux '{' '}' ('}' :: rest) 1 false false
      (1 + (serFields fields).length) =
      some (1 + (serFields fields).length + 1) := by
    simp [bracketScanAux]
  rw [step1, scanAux_serFields fields _ 1 1 (by omega), step2]
  simp only [List.length_cons, List.length_append, List.length_singleton,
    List.length_nil]
  congr 1
  omega

/-- `indexOf` finds the head of the second part when the first part avoids
the character. -/
theorem indexOfChar_append_head (l1 rest : List Char) (h : '{' ∉ l1) :
    indexOfChar '{' (l1 ++ '{' :: rest) = some l1.length := by
  induction l1 with
  | nil => simp [indexOfChar]
  | cons a l ih =>
    have ha : a ≠ '{' := fun e => h (e ▸ List.mem_cons_self a l)
    have h' : '{' ∉ l := fun hm => h (List.mem_cons_of_mem a hm)
    rw [List.cons_append]
    simp only [indexOfChar, if_neg ha, ih h', Option.map_some']
    simp [List.length_cons]

/-- Any `[` found in `prefix ++ '{' :: rest` with a `[`-free first part
sits strictly after the first part. -/
theorem indexOfChar_append_gt (l1 rest : List Char) (h : '[' ∉ l1) (a : Nat)
    (ha : indexOfChar '[' (l1 ++ '{' :: rest) = some a) : l1.length < a := by
  induction l1 generalizing a with
  | nil =>
    simp only [List.nil_append, indexOfChar, if_neg (by decide : ¬('{' = '['))] at ha
    cases hr : indexOfChar '[' rest with
    | none => rw [hr] at ha; simp at ha
    | some b =>
      rw [hr] at ha
      simp only [Option.map_some', Option.some.injEq] at ha
      simp only [List.length_nil]
      omega
  | cons c l ih =>
    have hc : c ≠ '[' := fun e => h (e ▸ List.mem_cons_self c l)
    have h' : '[' ∉ l := fun hm => h (List.mem_cons_of_mem c hm)
    rw [List.cons_append] at ha
    simp only [indexOfChar, if_neg hc] at ha
    cases hr : indexOfChar '[' (l ++ '{' :: rest) with
    | none => rw [hr] at ha; simp at ha
    | some b =>
      rw [hr] at ha
      simp only [Option.map_some', Option.some.injEq] at ha
      have := ih h' b hr
      simp only [List.length_cons]
      omega

/-! ## Claim C5 -/

/-- C5: for every text made of a `{`/`[`-free leading part, a serialized
JSON object (so its first `{` precedes any `[`), and an arbitrary trailing
part, where some string value of the object contains an embedded unescaped
`}` character inside quotes, strategy 3 still extracts exactly the balanced
object slice and hands it to the direct parser — brackets inside string
literals do not perturb the depth count. -/
theorem tryBracketExtract_serialized_object (jp : JsonParseFn)
    (fields : JsonFields) (pre suffix : String)
    (hnb : '{' ∉ pre.data) (hna : '[' ∉ pre.data)
    (_hbr : hasBraceString (Json.obj fields) = true) :
    tryBracketExtract jp (pre ++ (⟨serJson (Json.obj fields)⟩ : String) ++ suffix) =
      tryDirectParse jp (⟨serJson (Json.obj fields)⟩ : String) := by
  have hS : serJson (Json.obj fields) = '{' :: (serFields fields ++ ['}']) := by
    simp [serJson]
  have hdata : (pre ++ (⟨serJson (Json.obj fields)⟩ : String) ++ suffix).data
      = pre.data ++ ('{' :: ((serFields fields ++ ['}']) ++ suffix.data)) := by
    rw [String.data_append, String.data_append]
    show (pre.data ++ serJson (Json.obj fields)) ++ suffix.data = _
    rw [hS, List.append_assoc, List.cons_append]
  have hfind1 : indexOfChar '{'
      (pre.data ++ ('{' :: ((serFields fields ++ ['}']) ++ suffix.data)))
      = some pre.data.length :=
    indexOfChar_append_head pre.data _ hnb
  have hdrop : List.drop pre.data.length
      (pre.data ++ ('{' :: ((serFields fields ++ ['}']) ++ suffix.data)))
      = serJson (Json.obj fields) ++ suffix.data := by
    have := List.drop_left pre.data
      ('{' :: ((serFields fields ++ ['}']) ++ suffix.data))
    rw [this, hS, List.cons_append, List.append_assoc]
  have hscan : bracketScanAux '{' '}'
      (serJson (Json.obj fields) ++ suffix.data) 0 false false 0
      = some (serJson (Json.obj fields)).length := scanAux_serObj fields suffix.data
  have htake : List.take (serJson (Json.obj fields)).length
      (serJson (Json.obj fields) ++ suffix.data) = serJson (Json.obj fields) :=
    List.take_left _ _
  unfold tryBracketExtract
  simp only [hdata, hfind1]
  cases hfa : indexOfChar '['
      (pre.data ++ ('{' :: ((serFields fields ++ ['}']) ++ suffix.data))) with
  | none =>
    simp only [hdrop, hscan, htake]
  | some a =>
    have hgt : pre.data.length < a := indexOfChar_append_gt pre.data _ hna a hfa
    simp only [if_pos hgt, hdrop, hscan, htake]

/-- Concrete object for the C5 witness: a single field whose string value
contains an embedded unescaped closing brace. -/
def sampleBraceFields : JsonFields :=
  JsonFields.fcons "note" (Json.str "ok\x7d still ok") JsonFields.fnil

/-- Witness for C5 at a concrete prefix, object and suffix. -/
theorem tryBracketExtract_serialized_object_witness :
    tryBracketExtract nullOnlyParse
        ("The answer: " ++ (⟨serJson (Json.obj sampleBraceFields)⟩ : String) ++ " end.") =
      tryDirectParse nullOnlyParse (⟨serJson (Json.obj sampleBraceFields)⟩ : String) :=
  tryBracketExtract_serialized_object nullOnlyParse sampleBraceFields
    "The answer: " " end." (by decide) (by decide) (by decide)

/-! ## The orchestrator pipeline (src/core/orchestrator.ts) and the stub
agents (src/agents/mock-product.ts, mock-dev.ts, mock-qa.ts)

`Date.now()`, `crypto.randomBytes(..).toString('hex')` and
`new Date().toISOString()` are host functions; they are modelled as oracle
functions supplied in an environment, consulted at distinct indices for
distinct call sites.  The audit logger appends one record per `logEvent`
call; each function below returns its result together with the list of
events it logs, in logging order, and `run` concatenates them in exact
call order. -/

/-- `generateAgentId` from orchestrator.ts / runtime.ts:
`{role}-{Date.now()}-{4-random-hex-chars}`. -/
def mkAgentId (role ts suffix : String) : String :=
  role ++ "-" ++ ts ++ "-" ++ suffix

/-- `generateSpecId` from orchestrator.ts / mock-product.ts:
`spec-{Date.now()}-{8-random-hex-chars}`. -/
def mkSpecId (ts suffix : String) : String :=
  "spec-" ++ ts ++ "-" ++ suffix

/-- Agent ids generated for roles whose names start with different
characters are distinct, whatever the timestamp and random parts are. -/
theorem mkAgentId_ne (r1 r2 ts1 suf1 ts2 suf2 : String) (c1 c2 : Char)
    (h1 : r1.data.head? = some c1) (h2 : r2.data.head? = some c2)
    (hne : c1 ≠ c2) : mkAgentId r1 ts1 suf1 ≠ mkAgentId r2 ts2 suf2 := by
  intro he
  have e1 : (mkAgentId r1 ts1 suf1).data.head? = some c1 := by
    simp [mkAgentId, String.data_append, List.head?_append, h1]
  have e2 : (mkAgentId r2 ts2 suf2).data.head? = some c2 := by
    simp [mkAgentId, String.data_append, List.head?_append, h2]
  rw [he, e2] at e1
  exact hne (Option.some.injEq .. ▸ e1).symm

/-- `execute` from mock-product.ts: ignores the classification, returns the
hardcoded Intent Spec, and logs `agent_execution_start` and
`agent_execution_end` around it. -/
def mockProductExecute (task : Task) (_classification : ClassificationResult)
    (agentId : String) (specTs specSuffix t1 t2 : String) :
    IntentSpec × List AuditEvent :=
  let spec : IntentSpec :=
    { specId := mkSpecId specTs specSuffix
      taskId := task.taskId
      objective := "Create a TypeScript function that returns a greeting string."
      requirements :=
        [ { id := "REQ-001"
            description := "A function named \"greet\" must exist and accept a single string parameter \"name\"."
            verification := "File contains an exported function with signature: greet(name: string): string." },
          { id := "REQ-002"
            description := "The function must return a string in the format \"Hello, \x7bname\x7d!\"."
            verification := "Calling greet(\"World\") returns exactly \"Hello, World!\"." } ]
      constraints :=
        [ { id := "CON-001"
            description := "The function must not perform I/O, network calls, or access the filesystem." } ]
      outOfScope :=
        [ "Internationalization or locale-specific greetings.",
          "Input validation beyond what TypeScript types enforce.",
          "Unit test files — testing is a separate task." ]
      assumptions :=
        [ { id := "ASM-001"
            statement := "The target runtime supports ES2022 or later."
            source := "operator_input" } ]
      contextRefs := [] }
  (spec,
    [ { timestamp := t1, taskId := task.taskId, eventType := "agent_execution_start"
        agentId := some agentId, data := EventData.stageStart "product" Option.none },
      { timestamp := t2, taskId := task.taskId, eventType := "agent_execution_end"
        agentId := some agentId, data := EventData.productEnd "product" spec.specId } ])

/-- `execute` from mock-dev.ts: returns the hardcoded completed output with
one artifact and two tool invocations, logging start and end events. -/
def mockDevExecute (spec : IntentSpec) (agentId : String) (now t2 : String) :
    DevOutput × List AuditEvent :=
  let output : DevOutput :=
    DevOutput.completed spec.taskId spec.specId
      [ { path := "src/greet.ts"
          content := "export function greet(name: string): string \x7b\n  return `Hello, $\x7bname\x7d!`;\n\x7d\n"
          type := "source" } ]
      [ { tool := "write", args := [("path", "src/greet.ts")]
          result := "File written successfully.", timestamp := now },
        { tool := "tsc", args := [("flags", "--noEmit src/greet.ts")]
          result := "No errors found.", timestamp := now } ]
  (output,
    [ { timestamp := now, taskId := spec.taskId, eventType := "agent_execution_start"
        agentId := some agentId, data := EventData.stageStart "dev" (some spec.specId) },
      { timestamp := t2, taskId := spec.taskId, eventType := "agent_execution_end"
        agentId := some agentId
        data := EventData.devEnd "dev" spec.specId "completed" 1 } ])

/-- `execute` from mock-qa.ts: maps every requirement and constraint of the
spec to a hardcoded `pass` result, never reads the dev output, and returns
a `pass` verdict with the numeric summary, logging start and end events. -/
def mockQAExecute (spec : IntentSpec) (_devOutput : DevOutput)
    (agentId : String) (t1 t2 : String) : ValidationReport × List AuditEvent :=
  let requirementResults : List RequirementResult :=
    spec.requirements.map fun req =>
      { requirementId := req.id
        status := ResultStatus.pass
        evidence := "Verified in artifact. Requirement \"" ++ req.id ++ "\" satisfied."
        verificationMethod := req.verification }
  let constraintResults : List ConstraintResult :=
    spec.constraints.map fun con =>
      { constraintId := con.id
        status := ResultStatus.pass
        evidence := "No violation detected. Constraint \"" ++ con.id ++ "\" respected." }
  let report : ValidationReport :=
    { taskId := spec.taskId
      specId := spec.specId
      verdict := Verdict.pass
      requirementResults := requirementResults
      constraintResults := constraintResults
      scopeViolations := []
      summary :=
        { totalRequirements := requirementResults.length
          passedRequirements := requirementResults.length
          failedRequirements := 0
          totalConstraints := constraintResults.length
          violatedConstraints := 0
          scopeViolationCount := 0 } }
  (report,
    [ { timestamp := t1, taskId := spec.taskId, eventType := "agent_execution_start"
        agentId := some agentId, data := EventData.stageStart "qa" (some spec.specId) },
      { timestamp := t2, taskId := spec.taskId, eventType := "agent_execution_end"
        agentId := some agentId
        data := EventData.qaEnd "qa" spec.specId report.verdict report.summary } ])

/-- `buildInlineSpec` from orchestrator.ts: the minimal single-requirement
spec synthesized when classification routes directly to dev. -/
def buildInlineSpec (task : Task) (specTs specSuffix : String) : IntentSpec :=
  { specId := mkSpecId specTs specSuffix
    taskId := task.taskId
    objective := task.body
    requirements :=
      [ { id := "REQ-001"
          description := task.body
          verification := "Implementation satisfies the task description as stated." } ]
    constraints := []
    outOfScope := ["Anything not explicitly stated in the task description."]
    assumptions :=
      [ { id := "ASM-001"
          statement := "The task description is a complete, unambiguous technical instruction."
          source := "operator_input" } ]
    contextRefs := [] }

/-- Host-runtime oracles consumed by one orchestrator run: ISO timestamps,
`Date.now()` values and random hex suffixes, indexed by call site. -/
structure OrchestratorEnv where
  patterns : PatternSets
  time : Nat → String
  genTs : Nat → String
  genSuffix : Nat → String

/-- `run` from orchestrator.ts: execution-start event, coordinator
spawn/classify/destroy, the product stage or the inline-spec
`product_skipped` branch, the dev stage, the qa stage, and the
execution-end event, in program order. -/
def run (env : OrchestratorEnv) (task : Task) : ExecutionResult × List AuditEvent :=
  let startEv : AuditEvent :=
    { timestamp := env.time 0, taskId := task.taskId, eventType := "execution_start"
      agentId := Option.none, data := EventData.execStart task.body }
  let coordinatorId := mkAgentId "coordinator" (env.genTs 0) (env.genSuffix 0)
  let spawnCoord : AuditEvent :=
    { timestamp := env.time 1, taskId := task.taskId, eventType := "agent_spawned"
      agentId := some coordinatorId, data := EventData.roleData "coordinator" }
  let classification := (classify env.patterns (env.time 2) task).1
  let classifyEvents := (classify env.patterns (env.time 2) task).2
  let destroyCoord : AuditEvent :=
    { timestamp := env.time 3, taskId := task.taskId, eventType := "agent_destroyed"
      agentId := some coordinatorId, data := EventData.roleData "coordinator" }
  let specStage : IntentSpec × List AuditEvent :=
    match classification.routedTo with
    | Route.product =>
      let productId := mkAgentId "product" (env.genTs 1) (env.genSuffix 1)
      let spawnP : AuditEvent :=
        { timestamp := env.time 4, taskId := task.taskId, eventType := "agent_spawned"
          agentId := some productId, data := EventData.roleData "product" }
      let stage := mockProductExecute task classification productId
        (env.genTs 2) (env.genSuffix 2) (env.time 5) (env.time 6)
      let destroyP : AuditEvent :=
        { timestamp := env.time 7, taskId := task.taskId, eventType := "agent_destroyed"
          agentId := some productId, data := EventData.roleData "product" }
      (stage.1, spawnP :: (stage.2 ++ [destroyP]))
    | Route.dev =>
      let spec := buildInlineSpec task (env.genTs 3) (env.genSuffix 3)
      let skipped : AuditEvent :=
        { timestamp := env.time 8, taskId := task.taskId, eventType := "product_skipped"
          agentId := Option.none
          data := EventData.productSkipped
            "Classification routed directly to dev. Technical input does not require disambiguation."
            classification.category classification.ruleApplied spec.specId }
      (spec, [skipped])
  let intentSpec := specStage.1
  let devId := mkAgentId "dev" (env.genTs 4) (env.genSuffix 4)
  let spawnDev : AuditEvent :=
    { timestamp := env.time 9, taskId := task.taskId, eventType := "agent_spawned"
      agentId := some devId, data := EventData.roleData "dev" }
  let devStage := mockDevExecute intentSpec devId (env.time 10) (env.time 11)
  let destroyDev : AuditEvent :=
    { timestamp := env.time 12, taskId := task.taskId, eventType := "agent_destroyed"
      agentId := some devId, data := EventData.roleData "dev" }
  let qaId := mkAgentId "qa" (env.genTs 5) (env.genSuffix 5)
  let spawnQa : AuditEvent :=
    { timestamp := env.time 13, taskId := task.taskId, eventType := "agent_spawned"
      agentId := some qaId, data := EventData.roleData "qa" }
  let qaStage := mockQAExecute intentSpec devStage.1 qaId (env.time 14) (env.time 15)
  let destroyQa : AuditEvent :=
    { timestamp := env.time 16, taskId := task.taskId, eventType := "agent_destroyed"
      agentId := some qaId, data := EventData.roleData "qa" }
  let endEv : AuditEvent :=
    { timestamp := env.time 17, taskId := task.taskId, eventType := "execution_end"
      agentId := Option.none
      data := EventData.execEnd qaStage.1.verdict qaStage.1.summary }
  ({ taskId := task.taskId
     classification := classification
     intentSpec := intentSpec
     devOutput := devStage.1
     validation := qaStage.1 },
    startEv :: spawnCoord :: (classifyEvents ++ (destroyCoord :: (specStage.2 ++
      (spawnDev :: (devStage.2 ++ (destroyDev :: spawnQa :: (qaStage.2 ++
        [destroyQa, endEv]))))))))

/-- Whether an event is the destruction record of the agent id `a`. -/
def isDestroyOf (a : String) (e : AuditEvent) : Bool :=
  decide (e.eventType = "agent_destroyed" ∧ e.agentId = some a)

/-- Every `agent_spawned` event in the list carries an agent id and is
followed later in the list by exactly one `agent_destroyed` event for that
same id. -/
def spawnsBracketed : List AuditEvent → Bool
  | [] => true
  | e :: rest =>
    (if e.eventType = "agent_spawned" then
      match e.agentId with
      | some a => decide (rest.countP (isDestroyOf a) = 1)
      | Option.none => false
    else true) && spawnsBracketed rest

/-- `classify` logs exactly one event, of type `classification`, with no
agent id. -/
theorem classify_single_event (p : PatternSets) (now : String) (task : Task) :
    ∃ e, (classify p now task).2 = [e] ∧ e.eventType = "classification" ∧
      e.agentId = Option.none := by
  rcases h : task.type with _ | t
  · simp only [classify, h]
    exact ⟨_, rfl, rfl, rfl⟩
  · cases t <;>
      · simp only [classify, h]
        exact ⟨_, rfl, rfl, rfl⟩

/-! ## Claims C7 and C10 -/

/-- C7: for every task, the audit stream of a completed orchestrator run
begins with `execution_start`, ends with `execution_end` carrying the
validation verdict and summary, and every `agent_spawned` event is
followed later in the stream by exactly one `agent_destroyed` event for
the same agent id. -/
theorem run_audit_trail (env : OrchestratorEnv) (task : Task) :
    ((run env task).2.map AuditEvent.eventType).head? = some "execution_start" ∧
    ((run env task).2.getLast?).map AuditEvent.eventType = some "execution_end" ∧
    ((run env task).2.getLast?).map AuditEvent.data =
      some (EventData.execEnd (run env task).1.validation.verdict
        (run env task).1.validation.summary) ∧
    spawnsBracketed (run env task).2 = true := by
  obtain ⟨ce, hce, hety, heag⟩ :=
    classify_single_event env.patterns (env.time 2) task
  have hpc : mkAgentId "product" (env.genTs 1) (env.genSuffix 1) ≠
      mkAgentId "coordinator" (env.genTs 0) (env.genSuffix 0) :=
    mkAgentId_ne _ _ _ _ _ _ 'p' 'c' rfl rfl (by decide)
  have hdc : mkAgentId "dev" (env.genTs 4) (env.genSuffix 4) ≠
      mkAgentId "coordinator" (env.genTs 0) (env.genSuffix 0) :=
    mkAgentId_ne _ _ _ _ _ _ 'd' 'c' rfl rfl (by decide)
  have hqc : mkAgentId "qa" (env.genTs 5) (env.genSuffix 5) ≠
      mkAgentId "coordinator" (env.genTs 0) (env.genSuffix 0) :=
    mkAgentId_ne _ _ _ _ _ _ 'q' 'c' rfl rfl (by decide)
  have hdp : mkAgentId "dev" (env.genTs 4) (env.genSuffix 4) ≠
      mkAgentId "product" (env.genTs 1) (env.genSuffix 1) :=
    mkAgentId_ne _ _ _ _ _ _ 'd' 'p' rfl rfl (by decide)
  have hqp : mkAgentId "qa" (env.genTs 5) (env.genSuffix 5) ≠
      mkAgentId "product" (env.genTs 1) (env.genSuffix 1) :=
    mkAgentId_ne _ _ _ _ _ _ 'q' 'p' rfl rfl (by decide)
  have hqd : mkAgentId "qa" (env.genTs 5) (env.genSuffix 5) ≠
      mkAgentId "dev" (env.genTs 4) (env.genSuffix 4) :=
    mkAgentId_ne _ _ _ _ _ _ 'q' 'd' rfl rfl (by decide)
  cases hroute : (classify env.patterns (env.time 2) task).1.routedTo with
  | product =>
    refine ⟨?_, ?_, ?_, ?_⟩
    · simp [run, hce, hroute]
    · simp [run, hce, hroute, mockProductExecute, mockDevExecute, mockQAExecute,
        List.getLast?_cons_cons]
    · simp [run, hce, hroute, mockProductExecute, mockDevExecute, mockQAExecute,
        List.getLast?_cons_cons]
    · simp [run, hce, hroute, mockProductExecute, mockDevExecute, mockQAExecute,
        spawnsBracketed, isDestroyOf, List.countP_cons, List.countP_nil,
        hety, heag, hpc, hdc, hqc, hdp, hqp, hqd]
  | dev =>
    refine ⟨?_, ?_, ?_, ?_⟩
    · simp [run, hce, hroute]
    · simp [run, hce, hroute, buildInlineSpec, mockDevExecute, mockQAExecute,
        List.getLast?_cons_cons]
    · simp [run, hce, hroute, buildInlineSpec, mockDevExecute, mockQAExecute,
        List.getLast?_cons_cons]
    · simp [run, hce, hroute, buildInlineSpec, mockDevExecute, mockQAExecute,
        spawnsBracketed, isDestroyOf, List.countP_cons, List.countP_nil,
        hety, heag, hdc, hqc, hqd]

/-- C10: the QA stage passes every requirement and constraint of the spec,
reports zero scope violations, its summary counts passed requirements as
all requirements with zero failures and zero violations, and the dev
output — even a failed one — has no influence on the report. -/
theorem mockQA_always_passes (spec : IntentSpec) (devOutput : DevOutput)
    (agentId t1 t2 : String) :
    (mockQAExecute spec devOutput agentId t1 t2).1.verdict = Verdict.pass ∧
    (∀ r ∈ (mockQAExecute spec devOutput agentId t1 t2).1.requirementResults,
      r.status = ResultStatus.pass) ∧
    (∀ r ∈ (mockQAExecute spec devOutput agentId t1 t2).1.constraintResults,
      r.status = ResultStatus.pass) ∧
    (mockQAExecute spec devOutput agentId t1 t2).1.requirementResults.length =
      spec.requirements.length ∧
    (mockQAExecute spec devOutput agentId t1 t2).1.constraintResults.length =
      spec.constraints.length ∧
    (mockQAExecute spec devOutput agentId t1 t2).1.scopeViolations = [] ∧
    (mockQAExecute spec devOutput agentId t1 t2).1.summary =
      { totalRequirements := spec.requirements.length
        passedRequirements := spec.requirements.length
        failedRequirements := 0
        totalConstraints := spec.constraints.length
        violatedConstraints := 0
        scopeViolationCount := 0 } ∧
    (∀ d2 : DevOutput, mockQAExecute spec d2 agentId t1 t2 =
      mockQAExecute spec devOutput agentId t1 t2) := by
  refine ⟨rfl, ?_, ?_, ?_, ?_, rfl, ?_, fun d2 => rfl⟩
  · intro r hr
    simp only [mockQAExecute, List.mem_map] at hr
    obtain ⟨req, -, rfl⟩ := hr
    rfl
  · intro r hr
    simp only [mockQAExecute, List.mem_map] at hr
    obtain ⟨con, -, rfl⟩ := hr
    rfl
  · simp [mockQAExecute]
  · simp [mockQAExecute]
  · simp [mockQAExecute]

/-- Witness for C10: with a concrete spec and a *failed* dev output, the
verdict is `pass` and the single requirement result passes. -/
theorem mockQA_always_passes_witness :
    (mockQAExecute (buildInlineSpec sampleTask "100" "abcd")
        (DevOutput.failed "task-001" "spec-x" []
          { errorType := DevErrorType.internal, detail := "boom" })
        "qa-1" "t1" "t2").1.verdict = Verdict.pass ∧
    ({ requirementId := "REQ-001"
       status := ResultStatus.pass
       evidence := "Verified in artifact. Requirement \"REQ-001\" satisfied."
       verificationMethod := "Implementation satisfies the task description as stated." }
      : RequirementResult).status = ResultStatus.pass := by
  have h := mockQA_always_passes (buildInlineSpec sampleTask "100" "abcd")
    (DevOutput.failed "task-001" "spec-x" []
      { errorType := DevErrorType.internal, detail := "boom" })
    "qa-1" "t1" "t2"
  exact ⟨h.1, h.2.1 _ (by decide)⟩

/-! ## System prompt assembly and agent spawning (src/core/runtime.ts) -/

/-- Model of the JavaScript `String.prototype.trimEnd` host function
(`Char.isWhitespace` stands for the JS whitespace class). -/
def jsTrimEnd (s : String) : String :=
  ⟨(s.data.reverse.dropWhile Char.isWhitespace).reverse⟩

/-- The `networkLine` constant of `buildPermissionsBlock` in runtime.ts. -/
def networkLine (scope : ResolvedScope) : String :=
  match scope.networkPolicy with
  | NetworkPolicy.none => "DENIED. No outbound network access is permitted."
  | NetworkPolicy.domains ds =>
    "RESTRICTED. Permitted domains: " ++ String.intercalate ", " ds ++ "."

/-- The `filesystemLine` constant of `buildPermissionsBlock` in runtime.ts. -/
def filesystemLine (scope : ResolvedScope) : String :=
  match scope.filesystemPolicy with
  | FilesystemPolicy.workspace =>
    "RESTRICTED. Read/write is permitted within ./workspace only. All other paths are denied."
  | FilesystemPolicy.none => "DENIED. No filesystem access is permitted."

/-- The `toolsList` constant of `buildPermissionsBlock` in runtime.ts. -/
def toolsList (scope : ResolvedScope) : String :=
  if scope.effectiveTools.length > 0 then
    String.intercalate "\n" (scope.effectiveTools.map fun t => "  - " ++ t)
  else "  (none)"

/-- The enforcement notice lines of `buildPermissionsBlock` in runtime.ts,
newline-joined. -/
def enforcementNotice : String :=
  "You are an untrusted, disposable runtime. Your capabilities are enforced externally.\nYou have no memory of prior executions. You have no access to resources not listed above.\nYour output will be validated against the task specification before acceptance.\nIf your task cannot be completed within these constraints, return a structured failure.\nDo not attempt workarounds. Do not escalate your own permissions. Fail explicitly."

/-- `buildPermissionsBlock` from runtime.ts: the `join('\n')` of its literal
line array, written out with the three interpolated lines and the tools
list in place. -/
def buildPermissionsBlock (scope : ResolvedScope) : String :=
  "---\n\n## Runtime Permissions\n\nThe following permissions are enforced structurally by the runtime.\nThey are not guidelines. Attempting to exceed them will be denied and logged.\n\n**Network access:** "
    ++ networkLine scope
    ++ "\n\n**Filesystem access:** " ++ filesystemLine scope
    ++ "\n\n**Permitted tools:**\n" ++ toolsList scope
    ++ "\n\n**Execution time limit:** " ++ toString scope.maxExecutionTime
    ++ "ms\n\n**Cost cap:** " ++ toString scope.maxCostCap
    ++ " tokens\n\n---\n\n## Enforcement Notice\n\n" ++ enforcementNotice

/-- `assembleSystemPrompt` from runtime.ts. -/
def assembleSystemPrompt (roleContent : String) (scope : ResolvedScope) : String :=
  jsTrimEnd roleContent ++ "\n\n" ++ buildPermissionsBlock scope ++ "\n"

/-- `SpawnErrorKind` from types.ts. -/
inductive SpawnErrorKind where
  | manifest_invalid
  | system_prompt_missing
  | permission_conflict
  | scope_violation
deriving DecidableEq, Repr

/-- `SpawnError` from types.ts. -/
structure SpawnError where
  kind : SpawnErrorKind
  detail : String
  manifestRole : AgentRole
deriving DecidableEq, Repr

/-- `SpawnedAgent` from types.ts (its `status: 'ready'` literal type is a
string always set to `"ready"`). -/
structure SpawnedAgent where
  agentId : String
  manifest : AgentManifest
  task : Task
  systemPrompt : String
  scope : ResolvedScope
  workspacePath : String
  createdAt : String
  status : String

/-- `SpawnResult` from types.ts. -/
inductive SpawnResult where
  | ok (agent : SpawnedAgent)
  | error (e : SpawnError)

/-- The role string of a manifest role, as used by `generateAgentId`. -/
def roleName : AgentRole → String
  | AgentRole.coordinator => "coordinator"
  | AgentRole.product => "product"
  | AgentRole.dev => "dev"
  | AgentRole.qa => "qa"

/-- Host-runtime oracles consumed by one `spawnAgent` call:
`loadSystemPromptContent` (the `fs.readFileSync` of the resolved path,
`Option.none` when the read throws), `Date.now()`, the random hex suffix,
and `new Date().toISOString()`. -/
structure SpawnEnv where
  readFile : String → String → Option String
  genTs : String
  genSuffix : String
  createdAt : String

/-- `spawnAgent` from runtime.ts: load the contract text (the only failure
surface), filter tools, resolve the scope, assemble the prompt, generate
the agent id and workspace path (`path.resolve(projectRoot, 'workspace',
agentId)` modelled as slash-joining), and return the populated record. -/
def spawnAgent (env : SpawnEnv) (manifest : AgentManifest) (task : Task)
    (projectRoot : String) : SpawnResult :=
  match env.readFile manifest.systemPromptPath projectRoot with
  | Option.none =>
    SpawnResult.error
      { kind := SpawnErrorKind.system_prompt_missing
        detail := "Cannot read system prompt at path: " ++ manifest.systemPromptPath
          ++ " (resolved from: " ++ projectRoot ++ ")"
        manifestRole := manifest.role }
  | some roleContent =>
    let effectiveTools := filterTools manifest.tools manifest.permissions
    let scope := resolveScope manifest effectiveTools
    let systemPrompt := assembleSystemPrompt roleContent scope
    let agentId := mkAgentId (roleName manifest.role) env.genTs env.genSuffix
    let workspacePath := projectRoot ++ "/workspace/" ++ agentId
    SpawnResult.ok
      { agentId := agentId
        manifest := manifest
        task := task
        systemPrompt := systemPrompt
        scope := scope
        workspacePath := workspacePath
        createdAt := env.createdAt
        status := "ready" }

/-- Trimming the end of a string that does not end in whitespace is the
identity. -/
theorem jsTrimEnd_eq_self (s : String)
    (h : ∀ c, s.data.getLast? = some c → c.isWhitespace = false) :
    jsTrimEnd s = s := by
  unfold jsTrimEnd
  cases hrev : s.data.reverse with
  | nil =>
    have hnil : s.data = [] := List.reverse_eq_nil_iff.mp hrev
    cases s with
    | mk data => simp_all
  | cons c rest =>
    have hlast : s.data.getLast? = some c := by
      rw [← List.head?_reverse, hrev, List.head?_cons]
    have hw : c.isWhitespace = false := h c hlast
    rw [List.dropWhile_cons_of_neg (by simp [hw]), ← hrev, List.reverse_reverse]

/-! ## Claims C8 and C9 -/

/-- Counterexample to C8 as stated: a role contract with trailing
whitespace is not reproduced verbatim at the head of the assembled prompt
— `trimEnd` removes the trailing space before the separator is appended. -/
theorem assembleSystemPrompt_verbatim_counterexample :
    List.isPrefixOf "X ".data
      (assembleSystemPrompt "X " (resolveScopeOf QA_MANIFEST)).data = false := by
  decide

/-- C8 (amended): the assembled system prompt is one document in fixed
order — the role contract with its trailing whitespace removed (verbatim
whenever the contract does not end in whitespace), then the constraints
block stating the network policy, filesystem policy, effective tool list,
time limit and cost cap, then the enforcement notice. -/
theorem assembleSystemPrompt_fixed_order (rc : String) (scope : ResolvedScope) :
    (assembleSystemPrompt rc scope =
      jsTrimEnd rc ++ "\n\n" ++
        "---\n\n## Runtime Permissions\n\nThe following permissions are enforced structurally by the runtime.\nThey are not guidelines. Attempting to exceed them will be denied and logged.\n\n**Network access:** "
        ++ networkLine scope ++ "\n\n**Filesystem access:** " ++ filesystemLine scope
        ++ "\n\n**Permitted tools:**\n" ++ toolsList scope
        ++ "\n\n**Execution time limit:** " ++ toString scope.maxExecutionTime
        ++ "ms\n\n**Cost cap:** " ++ toString scope.maxCostCap
        ++ " tokens\n\n---\n\n## Enforcement Notice\n\n"
        ++ (enforcementNotice ++ "\n")) ∧
    (∀ c, rc.data.getLast? = some c → c.isWhitespace = false →
      List.isPrefixOf rc.data (assembleSystemPrompt rc scope).data = true) := by
  constructor
  · have hm : ∀ X : String,
        ("\n\n" : String) ++
          ("---\n\n## Runtime Permissions\n\nThe following permissions are enforced structurally by the runtime.\nThey are not guidelines. Attempting to exceed them will be denied and logged.\n\n**Network access:** "
            ++ X) =
        "\n\n---\n\n## Runtime Permissions\n\nThe following permissions are enforced structurally by the runtime.\nThey are not guidelines. Attempting to exceed them will be denied and logged.\n\n**Network access:** "
          ++ X := by
      intro X
      rw [← String.append_assoc]
      simp
    simp [assembleSystemPrompt, buildPermissionsBlock, String.append_assoc, hm]
  · intro c hc hw
    have hid : jsTrimEnd rc = rc :=
      jsTrimEnd_eq_self rc (fun c' hc' => by
        rw [hc] at hc'
        cases hc'
        exact hw)
    unfold assembleSystemPrompt
    rw [hid]
    rw [String.data_append, String.data_append, String.data_append,
      List.append_assoc, List.append_assoc]
    rw [List.isPrefixOf_iff_prefix]
    exact List.prefix_append rc.data _

/-- Witness for C8 (amended) at a contract text with no trailing
whitespace: the contract appears verbatim as a prefix. -/
theorem assembleSystemPrompt_fixed_order_witness :
    List.isPrefixOf "# QA Agent contract".data
      (assembleSystemPrompt "# QA Agent contract" (resolveScopeOf QA_MANIFEST)).data
      = true :=
  (assembleSystemPrompt_fixed_order "# QA Agent contract"
    (resolveScopeOf QA_MANIFEST)).2 't' (by decide) (by decide)

/-- C9: `spawnAgent` is total and its only failure surface is the contract
read — a failed read returns the `system_prompt_missing` error, a
successful read returns the fully populated agent record, and any returned
error has kind `system_prompt_missing` (so `manifest_invalid`,
`permission_conflict` and `scope_violation` are never produced). -/
theorem spawnAgent_single_failure_surface (env : SpawnEnv)
    (manifest : AgentManifest) (task : Task) (projectRoot : String) :
    (env.readFile manifest.systemPromptPath projectRoot = Option.none →
      spawnAgent env manifest task projectRoot = SpawnResult.error
        { kind := SpawnErrorKind.system_prompt_missing
          detail := "Cannot read system prompt at path: " ++ manifest.systemPromptPath
            ++ " (resolved from: " ++ projectRoot ++ ")"
          manifestRole := manifest.role }) ∧
    (∀ content, env.readFile manifest.systemPromptPath projectRoot = some content →
      spawnAgent env manifest task projectRoot = SpawnResult.ok
        { agentId := mkAgentId (roleName manifest.role) env.genTs env.genSuffix
          manifest := manifest
          task := task
          systemPrompt := assembleSystemPrompt content
            (resolveScope manifest (filterTools manifest.tools manifest.permissions))
          scope := resolveScope manifest (filterTools manifest.tools manifest.permissions)
          workspacePath := projectRoot ++ "/workspace/"
            ++ mkAgentId (roleName manifest.role) env.genTs env.genSuffix
          createdAt := env.createdAt
          status := "ready" }) ∧
    (∀ e, spawnAgent env manifest task projectRoot = SpawnResult.error e →
      e.kind = SpawnErrorKind.system_prompt_missing) := by
  refine ⟨fun h => by simp [spawnAgent, h], fun content h => by simp [spawnAgent, h],
    fun e he => ?_⟩
  cases hr : env.readFile manifest.systemPromptPath projectRoot with
  | none =>
    simp only [spawnAgent, hr, SpawnResult.error.injEq] at he
    rw [← he]
  | some content =>
    simp [spawnAgent, hr] at he

/-- A spawn environment whose contract read fails. -/
def spawnEnvFail : SpawnEnv :=
  { readFile := fun _ _ => Option.none
    genTs := "1708276800000"
    genSuffix := "a3f2"
    createdAt := "2026-01-01T00:00:00.000Z" }

/-- A spawn environment whose contract read succeeds. -/
def spawnEnvOk : SpawnEnv :=
  { readFile := fun _ _ => some "# QA Agent contract"
    genTs := "1708276800000"
    genSuffix := "a3f2"
    createdAt := "2026-01-01T00:00:00.000Z" }

/-- Witness for C9: both branches at concrete inputs. -/
theorem spawnAgent_single_failure_surface_witness :
    spawnAgent spawnEnvFail QA_MANIFEST sampleTask "/proj" = SpawnResult.error
      { kind := SpawnErrorKind.system_prompt_missing
        detail := "Cannot read system prompt at path: " ++ QA_MANIFEST.systemPromptPath
          ++ " (resolved from: " ++ "/proj" ++ ")"
        manifestRole := QA_MANIFEST.role } ∧
    spawnAgent spawnEnvOk QA_MANIFEST sampleTask "/proj" = SpawnResult.ok
      { agentId := mkAgentId (roleName QA_MANIFEST.role) spawnEnvOk.genTs
          spawnEnvOk.genSuffix
        manifest := QA_MANIFEST
        task := sampleTask
        systemPrompt := assembleSystemPrompt "# QA Agent contract"
          (resolveScope QA_MANIFEST
            (filterTools QA_MANIFEST.tools QA_MANIFEST.permissions))
        scope := resolveScope QA_MANIFEST
          (filterTools QA_MANIFEST.tools QA_MANIFEST.permissions)
        workspacePath := "/proj" ++ "/workspace/"
          ++ mkAgentId (roleName QA_MANIFEST.role) spawnEnvOk.genTs
            spawnEnvOk.genSuffix
        createdAt := spawnEnvOk.createdAt
        status := "ready" } :=
  ⟨(spawnAgent_single_failure_surface spawnEnvFail QA_MANIFEST sampleTask "/proj").1 rfl,
   (spawnAgent_single_failure_surface spawnEnvOk QA_MANIFEST sampleTask "/proj").2.1
     "# QA Agent contract" rfl⟩

end Conductor
